import Mathlib

/-!
A verification development for the `@dhmk/di` dependency-injection library
(`src/index.ts`).

The library is embedded shallowly as a fueled interpreter over an explicit
state.  JavaScript objects compared by reference identity (resolution
functions, dependencies, containers, the shared `singletonsStateMap`
weak maps) are modelled by natural-number identities into explicit stores:

* a function table `FnEnv` maps each function identity to its definition —
  a plain user closure (`FnDef.user`, whose body is an `Expr` program),
  a `singletonFunction` wrapper (`FnDef.single`, holding the identity of
  the wrapped function), or a dependency created by `dependency(defaultFn)`
  (`FnDef.dep`, holding the identity of its default function, mirroring the
  `DEPENDENCY_TAG` payload);
* the mutable world `St` holds the container store, the store of singleton
  state maps (kept separately from containers because `createContainer`
  shares the `singletonsStateMap` *reference* with the cloned source), the
  ambient `globalContainerContext` slot, a counter cell (modelling the
  stateful `rand`-style factories used by the tests), and a fresh-identity
  source for container allocation.

The interpreter `run` mirrors the bodies of `dependency`,etc.
`singletonFunction`, `_bind`, `withContainer` and `getCaller` from
`src/index.ts` line by line; fuel only forces termination, one unit being
consumed per interpreter step.
-/

namespace DI

/-- Runtime values: numbers, function/dependency references (by identity),
`undefined`, and pairs (modelling the two-element arrays of the spec's
end-to-end scenario). -/
inductive Value where
  | nat : Nat → Value
  | fnv : Nat → Value
  | undef : Value
  | pair : Value → Value → Value
deriving DecidableEq

/-- Thrown failures.  `scopeRequired` is the single library error
("This function can run only inside `withContainer` function."); `userErr`
models any failure thrown by user-supplied code. -/
inductive Err where
  | scopeRequired : Err
  | userErr : Err
deriving DecidableEq

/-- Bodies of user-supplied zero-argument functions: return a constant,
read-and-increment the ambient counter cell (a stateful factory), throw,
invoke a function/dependency by identity, build a two-element array,
sequence, call the `bind` operation, call `getCaller`, or run a nested
`withContainer` (with an explicit container identity, or a fresh one). -/
inductive Expr where
  | constE : Value → Expr
  | next : Expr
  | throwE : Expr
  | call : Nat → Expr
  | pairE : Expr → Expr → Expr
  | seqE : Expr → Expr → Expr
  | bindE : Nat → Nat → Expr
  | getCallerE : Expr
  | withC : Expr → Option Nat → Expr
deriving DecidableEq

/-- Definition attached to a function identity: a plain closure, a
`singletonFunction` wrapper over the identity of the wrapped function, or a
Dependency (tagged with its `defaultFn` identity, as `DEPENDENCY_TAG`
carries the default function in the source). -/
inductive FnDef where
  | user : Expr → FnDef
  | single : Nat → FnDef
  | dep : Nat → FnDef
deriving DecidableEq

/-- The (immutable) table from function identities to their definitions. -/
def FnEnv : Type := List (Nat × FnDef)

/-- Lookup in an identity-keyed association list (models `Map.get`). -/
def findMap {α : Type} : List (Nat × α) → Nat → Option α
  | [], _ => none
  | (k, v) :: rest, k' => if k' = k then some v else findMap rest k'

/-- Update in an identity-keyed association list (models `Map.set`). -/
def setMap {α : Type} : List (Nat × α) → Nat → α → List (Nat × α)
  | [], k, v => [(k, v)]
  | (k', v') :: rest, k, v =>
      if k = k' then (k, v) :: rest else (k', v') :: setMap rest k v

/-- A container, as in `src/index.ts`: the `dependenciesMap` from dependency
identity to the identity of its currently bound resolution function, a
*reference* (store identity) to its `singletonsStateMap`, and the
`callersStack` of dependency identities (top of stack first; the source
pushes at the array's end, so the array index `length - 2` is list
index `1` here). -/
structure Container where
  dependenciesMap : List (Nat × Nat)
  singletonsRef : Nat
  callersStack : List Nat
deriving DecidableEq

/-- The mutable world: the container store, the store of singleton state
maps (`singletonsStateMap` objects, shared by reference between cloned
containers), the ambient `globalContainerContext` slot, the counter cell
used by stateful user factories, and the fresh-identity source. -/
structure St where
  containers : List (Nat × Container)
  singletonStores : List (Nat × List (Nat × Value))
  activeC : Option Nat
  counter : Nat
  freshId : Nat
deriving DecidableEq

/-- The empty initial world. -/
def s0 : St := ⟨[], [], none, 0, 0⟩

/-- Dereference a container identity (well-formed states always hit). -/
def getCtr (s : St) (cid : Nat) : Container :=
  (findMap s.containers cid).getD ⟨[], 0, []⟩

/-- Store a container under its identity. -/
def setCtr (s : St) (cid : Nat) (c : Container) : St :=
  { s with containers := setMap s.containers cid c }

/-- Dereference a `singletonsStateMap` store identity. -/
def getStore (s : St) (sid : Nat) : List (Nat × Value) :=
  (findMap s.singletonStores sid).getD []

/-- `singletonsStateMap.set(self, { state: v })`: the presence of an entry
in the association list plays the role of the `{ state }` wrapper that
distinguishes a cached `undefined` from an absent entry. -/
def cacheSet (s : St) (sid f : Nat) (v : Value) : St :=
  { s with singletonStores := setMap s.singletonStores sid (setMap (getStore s sid) f v) }

/-- `dependenciesMap.set(d, f)` on container `cid`. -/
def setDep (s : St) (cid d f : Nat) : St :=
  setCtr s cid { getCtr s cid with dependenciesMap := setMap (getCtr s cid).dependenciesMap d f }

/-- `callersStack.push(d)` on container `cid` (top of stack first). -/
def pushCaller (s : St) (cid d : Nat) : St :=
  setCtr s cid { getCtr s cid with callersStack := d :: (getCtr s cid).callersStack }

/-- `callersStack.pop()` on container `cid` (popping an empty stack is a
no-op, as for a JavaScript array). -/
def popCaller (s : St) (cid : Nat) : St :=
  setCtr s cid { getCtr s cid with callersStack := (getCtr s cid).callersStack.tail }

/-- `createContainer(cont?)`: with no base, a fresh container with an empty
`dependenciesMap`, a *fresh* singleton store and an empty `callersStack`;
with a base, the `dependenciesMap` is copied (`new Map(cont.dependenciesMap)`)
while the singleton store *reference* is shared
(`cont.singletonsStateMap ?? new WeakMap()`), and `callersStack` is empty.
Returns the new container's identity and the updated world. -/
def createContainer (s : St) (base : Option Nat) : Nat × St :=
  match base with
  | none =>
      (s.freshId,
       { s with
          containers := setMap s.containers s.freshId ⟨[], s.freshId + 1, []⟩,
          singletonStores := setMap s.singletonStores (s.freshId + 1) [],
          freshId := s.freshId + 2 })
  | some b =>
      (s.freshId,
       { s with
          containers :=
            setMap s.containers s.freshId
              ⟨(getCtr s b).dependenciesMap, (getCtr s b).singletonsRef, []⟩,
          freshId := s.freshId + 1 })

/-- `_bind(dependency, fn)` from `src/index.ts`: requires an ambient
container (else the `scopeRequired` error); if `fn` carries the
`DEPENDENCY_TAG` (i.e. its table entry is `FnDef.dep`), replace it by the
function currently bound to it in the ambient container's `dependenciesMap`,
falling back to its `DEPENDENCY_TAG` payload (its default function); then
`dependenciesMap.set(dependency, fn)`.  Returns `undefined`. -/
def bindOp (Γ : FnEnv) (d f : Nat) (s : St) : Except Err Value × St :=
  match s.activeC with
  | none => (.error .scopeRequired, s)
  | some cid =>
      let g : Nat :=
        match findMap Γ f with
        | some (.dep dflt) => (findMap (getCtr s cid).dependenciesMap f).getD dflt
        | _ => f
      (.ok .undef, setDep s cid d g)

/-- `getCaller()`: requires an ambient container; returns
`callersStack[callersStack.length - 2]` (list index `1` in our top-first
representation), or `undefined` when fewer than two entries exist. -/
def getCallerOp (s : St) : Except Err Value × St :=
  match s.activeC with
  | none => (.error .scopeRequired, s)
  | some cid =>
      (.ok (match (getCtr s cid).callersStack.get? 1 with
            | some d => .fnv d
            | none => .undef), s)

/-- The interpreter.  `Sum.inl e` evaluates a user-code expression, and
`Sum.inr f` invokes the function with identity `f` — mirroring, per
`FnDef` case, the bodies of the closures built by `dependency` and
`singletonFunction` in `src/index.ts`.  `none` means the fuel ran out
(non-termination); every interpreter step consumes one unit. -/
def run (Γ : FnEnv) : Nat → Expr ⊕ Nat → St → Option (Except Err Value × St)
  | 0, _, _ => none
  | fuel + 1, Sum.inl e, s =>
    match e with
    | .constE v => some (.ok v, s)
    | .next => some (.ok (.nat s.counter), { s with counter := s.counter + 1 })
    | .throwE => some (.error .userErr, s)
    | .call f => run Γ fuel (Sum.inr f) s
    | .pairE a b =>
      match run Γ fuel (Sum.inl a) s with
      | none => none
      | some (.error e1, s1) => some (.error e1, s1)
      | some (.ok v1, s1) =>
        match run Γ fuel (Sum.inl b) s1 with
        | none => none
        | some (.error e2, s2) => some (.error e2, s2)
        | some (.ok v2, s2) => some (.ok (.pair v1 v2), s2)
    | .seqE a b =>
      match run Γ fuel (Sum.inl a) s with
      | none => none
      | some (.error e1, s1) => some (.error e1, s1)
      | some (.ok _, s1) => run Γ fuel (Sum.inl b) s1
    | .bindE d f => some (bindOp Γ d f s)
    | .getCallerE => some (getCallerOp s)
    | .withC body carg =>
      let p : Nat × St :=
        match carg with
        | some cid => (cid, s)
        | none => createContainer s none
      match run Γ fuel (Sum.inl body) { p.2 with activeC := some p.1 } with
      | none => none
      | some (r, s3) => some (r, { s3 with activeC := p.2.activeC })
  | fuel + 1, Sum.inr f, s =>
    match findMap Γ f with
    | none => some (.error .userErr, s)
    | some (.user body) => run Γ fuel (Sum.inl body) s
    | some (.single inner) =>
      match s.activeC with
      | none => some (.error .scopeRequired, s)
      | some cid =>
        match findMap (getStore s (getCtr s cid).singletonsRef) f with
        | some v => some (.ok v, s)
        | none =>
          match run Γ fuel (Sum.inr inner) s with
          | none => none
          | some (.error e1, s1) => some (.error e1, s1)
          | some (.ok v, s1) => some (.ok v, cacheSet s1 (getCtr s cid).singletonsRef f v)
    | some (.dep dflt) =>
      match s.activeC with
      | none => some (.error .scopeRequired, s)
      | some cid =>
        let p : Nat × St :=
          match findMap (getCtr s cid).dependenciesMap f with
          | some g => (g, s)
          | none => (dflt, setDep s cid f dflt)
        match run Γ fuel (Sum.inr p.1) (pushCaller p.2 cid f) with
        | none => none
        | some (r, s3) => some (r, popCaller s3 cid)

/-! ### Concrete scenario tables and worlds -/

/-- A stateful counter factory (the tests' `rand`): yields 0, 1, 2, … on
successive calls. -/
def counterFn : FnDef := .user .next

/-- Table for the end-to-end scenario: `0` the counter function,
`1 = dependency(counter)` (transient `D`), `2 = singletonFunction(counter)`,
`3 = dependency(singletonFunction(counter))` (singleton `S`). -/
def env1 : FnEnv := [(0, counterFn), (1, .dep 0), (2, .single 0), (3, .dep 2)]

/-- Table for the clone scenarios: `0` the counter, `1 = singletonFunction(0)`,
`2 = dependency(1)` (the singleton dependency `S`), `3` a second counter
closure over the same cell, `4 = singletonFunction(3)` (the "new function"
used for rebinding). -/
def env2 : FnEnv := [(0, counterFn), (1, .single 0), (2, .dep 1), (3, counterFn), (4, .single 3)]

/-- World after `c1 = createContainer()` (identity 0) and
`c1x2 = createContainer(c1)` (identity 2, sharing `c1`'s singleton store 1). -/
def cloneWorld : St := (createContainer (createContainer s0 none).2 (some 0)).2

/-- Table for the shared-cache counterexample scenario: just the counter and
one `singletonFunction` over it. -/
def env9 : FnEnv := [(0, counterFn), (1, .single 0)]

/-- World with two independently created containers (identities 0 and 2),
each with its own singleton store (1 and 3). -/
def twoWorld : St := (createContainer (createContainer s0 none).2 none).2

/-- Table for the aliasing scenarios: `0 = () => 1` (B's default `g1`),
`1 = dependency(0)` (`B`), `2 = () => 2` (`g2`), `4 = () => 0` (D's
default), `3 = dependency(4)` (`D`). -/
def envA : FnEnv :=
  [(0, .user (.constE (.nat 1))), (1, .dep 0), (2, .user (.constE (.nat 2))),
   (3, .dep 4), (4, .user (.constE (.nat 0)))]

/-- Table for the C10 counterexample: `0 = () => 1`, `1 = dependency(0)`
(`B`), `2 = dependency(1)` (`C`, whose *default function is the dependency
`B` itself*), `4 = () => 0`, `3 = dependency(4)` (`D`), `5 = () => 2`. -/
def envX : FnEnv :=
  [(0, .user (.constE (.nat 1))), (1, .dep 0), (2, .dep 1),
   (3, .dep 4), (4, .user (.constE (.nat 0))), (5, .user (.constE (.nat 2)))]

/-- World with one explicitly created container (identity 0). -/
def oneWorld : St := (createContainer s0 none).2

/-- State after, inside container 0: `C()` (seeding `C ↦ B` and `B ↦ g1`),
`bind(B, C)` (storing `B`'s entry as `B` itself), `bind(D, B)`. -/
def c10world : St :=
  ((run envX 30 (Sum.inl (.withC
      (.seqE (.call 2) (.seqE (.bindE 1 2) (.bindE 3 1))) (some 0))) oneWorld).getD
    (.ok .undef, s0)).2

/-- Table for the seeding scenario: `0 = () => 7`, `1 = dependency(0)`. -/
def env6 : FnEnv := [(0, .user (.constE (.nat 7))), (1, .dep 0)]

/-- State after resolving dependency 1 once inside container 0. -/
def seededWorld : St :=
  ((run env6 20 (Sum.inl (.withC (.call 1) (some 0))) oneWorld).getD (.ok .undef, s0)).2

/-- `oneWorld` with container 0 installed as the ambient container, as it is
during the body of a `withContainer(body, oneWorld)` call. -/
def actWorld : St := { oneWorld with activeC := some 0 }

/-- `actWorld` with dependency 3 bound to the plain function 0 in container 0. -/
def aliasWorld : St := setDep actWorld 0 3 0

/-- The state of `cloneWorld` after the clone (container 2) resolved the
shared singleton-wrapped function 1 once. -/
def c9mid : St :=
  ((run env9 20 (Sum.inl (.withC (.call 1) (some 2))) cloneWorld).getD (.ok .undef, s0)).2

/-- Result of a trivial scoped execution, used to witness the restore
property at a concrete input. -/
def outC4 : Except Err Value × St :=
  (run env6 5 (Sum.inl (.withC (.constE .undef) none)) s0).getD (.ok .undef, s0)

/-- Result of resolving dependency 1 in `actWorld`, used to witness the
caller-stack restoration at a concrete input. -/
def outC8 : Except Err Value × St :=
  (run env6 10 (Sum.inr 1) actWorld).getD (.ok .undef, s0)


/-! ### Helper lemmas about the state operations -/

theorem findMap_setMap {α : Type} (m : List (Nat × α)) (k k' : Nat) (v : α) :
    findMap (setMap m k v) k' = if k' = k then some v else findMap m k' := by
  induction m with
  | nil => by_cases h : k' = k <;> simp [setMap, findMap, h]
  | cons hd tl ih =>
    obtain ⟨a, b⟩ := hd
    by_cases h1 : k = a
    · subst h1
      by_cases h2 : k' = k <;> simp [setMap, findMap, h2]
    · by_cases h2 : k' = a
      · subst h2
        simp [setMap, findMap, h1, Ne.symm h1]
      · simp [setMap, findMap, h1, h2, ih]

theorem getCtr_setCtr (s : St) (cid c : Nat) (ctr : Container) :
    getCtr (setCtr s cid ctr) c = if c = cid then ctr else getCtr s c := by
  by_cases h : c = cid <;> simp [getCtr, setCtr, findMap_setMap, h]

theorem freshId_setCtr (s : St) (cid : Nat) (ctr : Container) :
    (setCtr s cid ctr).freshId = s.freshId := rfl

theorem stack_setDep (s : St) (cid d f c : Nat) :
    (getCtr (setDep s cid d f) c).callersStack = (getCtr s c).callersStack := by
  by_cases h : c = cid <;> simp [setDep, getCtr_setCtr, h]

theorem stack_pushCaller (s : St) (cid d c : Nat) :
    (getCtr (pushCaller s cid d) c).callersStack =
      if c = cid then d :: (getCtr s cid).callersStack else (getCtr s c).callersStack := by
  by_cases h : c = cid <;> simp [pushCaller, getCtr_setCtr, h]

theorem stack_popCaller (s : St) (cid c : Nat) :
    (getCtr (popCaller s cid) c).callersStack =
      if c = cid then (getCtr s cid).callersStack.tail else (getCtr s c).callersStack := by
  by_cases h : c = cid <;> simp [popCaller, getCtr_setCtr, h]

theorem getCtr_cacheSet (s : St) (sid f : Nat) (v : Value) (c : Nat) :
    getCtr (cacheSet s sid f v) c = getCtr s c := rfl

theorem getCtr_createContainer_of_lt (s : St) (c : Nat) (h : c < s.freshId) :
    getCtr (createContainer s none).2 c = getCtr s c := by
  have hne : c ≠ s.freshId := Nat.ne_of_lt h
  simp [createContainer, getCtr, findMap_setMap, hne]

theorem bindOp_state (Γ : FnEnv) (d f : Nat) (s : St) :
    (bindOp Γ d f s).2.freshId = s.freshId ∧ (bindOp Γ d f s).2.activeC = s.activeC ∧
      ∀ c, (getCtr (bindOp Γ d f s).2 c).callersStack = (getCtr s c).callersStack := by
  cases h : s.activeC with
  | none => simp [bindOp, h]
  | some cid =>
    simp only [bindOp, h]
    exact ⟨rfl, h, fun c => stack_setDep _ _ _ _ _⟩

theorem getCallerOp_state (s : St) : (getCallerOp s).2 = s := by
  cases h : s.activeC <;> simp [getCallerOp, h]

/-! ### Frame preservation

Any terminating interpreter step leaves the fresh-identity source
monotone, and restores every pre-existing container's `callersStack`
(the "guaranteed pop / guaranteed restore on every exit path" discipline
of `dependency` and `withContainer`). -/

theorem run_frame (Γ : FnEnv) :
    ∀ fuel x s out, run Γ fuel x s = some out →
      s.freshId ≤ out.2.freshId ∧
        ∀ c, c < s.freshId →
          (getCtr out.2 c).callersStack = (getCtr s c).callersStack := by
  intro fuel
  induction fuel with
  | zero => intro x s out h; simp [run] at h
  | succ n ih =>
    intro x s out h
    rcases x with e | f
    · cases e with
      | constE v =>
        simp only [run] at h
        cases h
        exact ⟨Nat.le_refl _, fun c _ => rfl⟩
      | next =>
        simp only [run] at h
        cases h
        exact ⟨Nat.le_refl _, fun c _ => rfl⟩
      | throwE =>
        simp only [run] at h
        cases h
        exact ⟨Nat.le_refl _, fun c _ => rfl⟩
      | call f =>
        simp only [run] at h
        exact ih _ _ _ h
      | pairE a b =>
        simp only [run] at h
        split at h
        · exact absurd h (by simp)
        · cases h
          rename_i heq
          exact ih _ _ _ heq
        · rename_i v1 s1 heq1
          split at h
          · exact absurd h (by simp)
          · cases h
            rename_i heq2
            obtain ⟨m1, p1⟩ := ih _ _ _ heq1
            obtain ⟨m2, p2⟩ := ih _ _ _ heq2
            exact ⟨Nat.le_trans m1 m2, fun c hc =>
              (p2 c (Nat.lt_of_lt_of_le hc m1)).trans (p1 c hc)⟩
          · cases h
            rename_i heq2
            obtain ⟨m1, p1⟩ := ih _ _ _ heq1
            obtain ⟨m2, p2⟩ := ih _ _ _ heq2
            exact ⟨Nat.le_trans m1 m2, fun c hc =>
              (p2 c (Nat.lt_of_lt_of_le hc m1)).trans (p1 c hc)⟩
      | seqE a b =>
        simp only [run] at h
        split at h
        · exact absurd h (by simp)
        · cases h
          rename_i heq
          exact ih _ _ _ heq
        · rename_i v1 s1 heq1
          obtain ⟨m1, p1⟩ := ih _ _ _ heq1
          obtain ⟨m2, p2⟩ := ih _ _ _ h
          exact ⟨Nat.le_trans m1 m2, fun c hc =>
            (p2 c (Nat.lt_of_lt_of_le hc m1)).trans (p1 c hc)⟩
      | bindE d f =>
        simp only [run] at h
        cases h
        obtain ⟨h1, _, h3⟩ := bindOp_state Γ d f s
        exact ⟨Nat.le_of_eq h1.symm, fun c _ => h3 c⟩
      | getCallerE =>
        simp only [run] at h
        cases h
        rw [getCallerOp_state]
        exact ⟨Nat.le_refl _, fun c _ => rfl⟩
      | withC body carg =>
        cases carg with
        | some cid =>
          simp only [run] at h
          split at h
          · exact absurd h (by simp)
          · cases h
            rename_i r s3 heq
            obtain ⟨m1, p1⟩ := ih _ _ _ heq
            exact ⟨m1, fun c hc => p1 c hc⟩
        | none =>
          simp only [run] at h
          split at h
          · exact absurd h (by simp)
          · cases h
            rename_i r s3 heq
            obtain ⟨m1, p1⟩ := ih _ _ _ heq
            have m2 : s.freshId + 2 ≤ s3.freshId := m1
            refine ⟨?_, fun c hc => ?_⟩
            · exact Nat.le_trans (by omega) m2
            · have hp1 : (getCtr s3 c).callersStack
                  = (getCtr (createContainer s none).2 c).callersStack :=
                p1 c (show c < s.freshId + 2 by omega)
              have hcc := getCtr_createContainer_of_lt s c hc
              show (getCtr s3 c).callersStack = (getCtr s c).callersStack
              rw [hp1, hcc]
    · simp only [run] at h
      split at h
      · cases h
        exact ⟨Nat.le_refl _, fun c _ => rfl⟩
      · exact ih _ _ _ h
      · rename_i inner hf
        split at h
        · cases h
          exact ⟨Nat.le_refl _, fun c _ => rfl⟩
        · rename_i cid hac
          split at h
          · cases h
            exact ⟨Nat.le_refl _, fun c _ => rfl⟩
          · split at h
            · exact absurd h (by simp)
            · cases h
              rename_i heq
              exact ih _ _ _ heq
            · cases h
              rename_i v s1 heq
              obtain ⟨m1, p1⟩ := ih _ _ _ heq
              exact ⟨m1, fun c hc => (p1 c hc)⟩
      · rename_i dflt hf
        split at h
        · cases h
          exact ⟨Nat.le_refl _, fun c _ => rfl⟩
        · rename_i cid hac
          split at h
          · exact absurd h (by simp)
          · cases h
            rename_i r s3 heq
            obtain ⟨m1, p1⟩ := ih _ _ _ heq
            set p : Nat × St :=
              (match findMap (getCtr s cid).dependenciesMap f with
                | some g => (g, s)
                | none => (dflt, setDep s cid f dflt)) with hp
            have hfresh2 : (pushCaller p.2 cid f).freshId = s.freshId := by
              rcases hm : findMap (getCtr s cid).dependenciesMap f with _ | g <;>
                simp [hp, hm, pushCaller, freshId_setCtr, setDep, setCtr]
            have hstackp : ∀ c2, (getCtr p.2 c2).callersStack = (getCtr s c2).callersStack := by
              intro c2
              rcases hm : findMap (getCtr s cid).dependenciesMap f with _ | g
              · simp [hp, hm, stack_setDep]
              · simp [hp, hm]
            refine ⟨?_, fun c hc => ?_⟩
            · have := m1
              rw [hfresh2] at this
              exact this
            · have hc2 : c < (pushCaller p.2 cid f).freshId := by rw [hfresh2]; exact hc
              have hs3 := p1 c hc2
              rw [stack_pushCaller] at hs3
              rw [stack_popCaller]
              by_cases hcc : c = cid
              · subst hcc
                simp at hs3 ⊢
                rw [hs3]
                simp [hstackp]
              · simp [hcc] at hs3 ⊢
                rw [hs3, hstackp]

/-! ### Claim theorems -/

/-- C1: for a dependency `D` created from a counter yielding 0 then 1,
`Run(() => [D(), D()])` returns `[0, 1]` (transient: each resolution invokes
the function anew); for `S` created from the singleton-wrapped counter,
`Run(() => [S(), S()])` returns `[0, 0]` (the wrapped function runs once per
container and its result is cached); and two separate `Run(() => S())`
calls with no shared container return 0 and 1 respectively (fresh container
each time, counter state not reset). -/
theorem C1_end_to_end :
    (run env1 20 (Sum.inl (.withC (.pairE (.call 1) (.call 1)) none)) s0).map Prod.fst
      = some (.ok (.pair (.nat 0) (.nat 1))) ∧
    (run env1 20 (Sum.inl (.withC (.pairE (.call 3) (.call 3)) none)) s0).map Prod.fst
      = some (.ok (.pair (.nat 0) (.nat 0))) ∧
    (run env1 20 (Sum.inl (.pairE (.withC (.call 3) none) (.withC (.call 3) none))) s0).map
        Prod.fst
      = some (.ok (.pair (.nat 0) (.nat 1))) :=
  ⟨rfl, rfl, rfl⟩

/-- C2: with `c1` (container 0) and its clone `c1x2` (container 2, built by
`createContainer(c1)`), the singleton dependency 2 resolved first in `c1`
and then in `c1x2` returns the same cached value 0 in both (the clone shares
the source's `singletonCache` reference); after `c1x2` rebinds dependency 2
to the new function 4, a resolution in `c1x2` yields 1 (diverging from
`c1`), while a subsequent resolution in `c1` still returns the original
cached 0. -/
theorem C2_clone_shares_cache_until_rebind :
    (run env2 40 (Sum.inl (.pairE
        (.withC (.call 2) (some 0))
        (.pairE (.withC (.call 2) (some 2))
          (.pairE (.withC (.seqE (.bindE 2 4) (.call 2)) (some 2))
            (.withC (.call 2) (some 0)))))) cloneWorld).map Prod.fst
      = some (.ok (.pair (.nat 0) (.pair (.nat 0) (.pair (.nat 1) (.nat 0))))) :=
  rfl

/-- C3: with no ambient container, invoking a Dependency (Resolve), the
bind operation (Rebind), and `getCaller` each return the single
`scopeRequired` error and leave the state unchanged, rather than returning
a value or failing any other way. -/
theorem C3_scope_required (Γ : FnEnv) (n : Nat) (s : St) (h : s.activeC = none) :
    (∀ f dflt, findMap Γ f = some (.dep dflt) →
        run Γ (n + 1) (Sum.inr f) s = some (.error .scopeRequired, s)) ∧
    (∀ d g, run Γ (n + 1) (Sum.inl (.bindE d g)) s = some (.error .scopeRequired, s)) ∧
    run Γ (n + 1) (Sum.inl .getCallerE) s = some (.error .scopeRequired, s) := by
  refine ⟨fun f dflt hf => ?_, fun d g => ?_, ?_⟩
  · simp only [run, hf, h]
  · simp only [run, bindOp, h]
  · simp only [run, getCallerOp, h]

/-- Witness for C3 at a concrete input: dependency 1 of `env6` invoked in
the empty world (no ambient container). -/
theorem C3_witness :
    run env6 1 (Sum.inr 1) s0 = some (.error .scopeRequired, s0) :=
  (C3_scope_required env6 0 s0 rfl).1 1 0 rfl

/-- C4: every `withContainer` execution restores the ambient container slot
to its pre-entry value on exit, whether the body returned normally or threw
(out-of-fuel runs never exit); in particular nested scoped executions
restore the immediately enclosing scope's container. -/
theorem C4_ambient_restored (Γ : FnEnv) (n : Nat) (body : Expr) (carg : Option Nat)
    (s : St) (out : Except Err Value × St)
    (h : run Γ n (Sum.inl (.withC body carg)) s = some out) :
    out.2.activeC = s.activeC := by
  cases n with
  | zero => simp [run] at h
  | succ m =>
    simp only [run] at h
    split at h
    · exact absurd h (by simp)
    · cases h
      cases carg <;> rfl

/-- Witness for C4 at a concrete input: a trivial body in a fresh container
over the empty world. -/
theorem C4_witness : outC4.2.activeC = s0.activeC :=
  C4_ambient_restored env6 5 (.constE .undef) none s0 outC4 rfl

/-- C5: `Rebind(D, B)` with `B` a Dependency stores under `D`'s identity the
function currently bound to `B` in the ambient container's overrides when an
entry exists, and otherwise `B`'s default function; consequently (concrete
part, over `envA` with `B = 1`, its default `0 = () => 1`, `g2 = 2 = () => 2`,
`D = 3`) after `bind(B, g2); bind(D, B)` the dependency `D` resolves to 2
via the function currently governing `B`, not via `B`'s own default. -/
theorem C5_rebind_alias (Γ : FnEnv) (n : Nat) (s : St) (cid D B dflt : Nat)
    (h1 : s.activeC = some cid) (h2 : findMap Γ B = some (.dep dflt)) :
    run Γ (n + 1) (Sum.inl (.bindE D B)) s
      = some (.ok .undef,
          setDep s cid D ((findMap (getCtr s cid).dependenciesMap B).getD dflt)) ∧
    (run envA 20 (Sum.inl (.withC
        (.seqE (.bindE 1 2) (.seqE (.bindE 3 1) (.call 3))) none)) s0).map Prod.fst
      = some (.ok (.nat 2)) := by
  refine ⟨?_, rfl⟩
  simp only [run, bindOp, h1, h2]

/-- Witness for C5 at a concrete input: `bind(3, 1)` in `actWorld` (container
0 ambient, no entry for dependency 1, whose default is 0). -/
theorem C5_witness :
    run envA 6 (Sum.inl (.bindE 3 1)) actWorld
      = some (.ok .undef,
          setDep actWorld 0 3 ((findMap (getCtr actWorld 0).dependenciesMap 1).getD 0)) :=
  (C5_rebind_alias envA 5 actWorld 0 3 1 0 rfl rfl).1

/-- C6: on the first resolution of a dependency `D` in the ambient container
(no entry for `D` in its overrides), Resolve stores `D`'s default function
into the overrides under `D`'s identity before invoking it: the resolution
equals invoking the default from the seeded-and-pushed state (with the
guaranteed pop on exit).  Concretely, after `Run(() => D())` over container
0 (`seededWorld`), the overrides of container 0 hold the seeded entry
`1 ↦ 0`, which later rebinds and clones observe. -/
theorem C6_lazy_seed (Γ : FnEnv) (n : Nat) (s : St) (cid D dflt : Nat)
    (h1 : s.activeC = some cid) (h2 : findMap Γ D = some (.dep dflt))
    (h3 : findMap (getCtr s cid).dependenciesMap D = none) :
    run Γ (n + 1) (Sum.inr D) s
      = (match run Γ n (Sum.inr dflt) (pushCaller (setDep s cid D dflt) cid D) with
         | none => none
         | some (r, s3) => some (r, popCaller s3 cid)) ∧
    findMap (getCtr seededWorld 0).dependenciesMap 1 = some 0 := by
  refine ⟨?_, rfl⟩
  simp only [run, h1, h2, h3]

/-- Witness for C6 at a concrete input: first resolution of dependency 1 in
`actWorld` (container 0 ambient with empty overrides). -/
theorem C6_witness :
    run env6 6 (Sum.inr 1) actWorld
      = (match run env6 5 (Sum.inr 0) (pushCaller (setDep actWorld 0 1 0) 0 1) with
         | none => none
         | some (r, s3) => some (r, popCaller s3 0)) :=
  (C6_lazy_seed env6 5 actWorld 0 1 0 rfl rfl rfl).1

/-- C7: with an ambient container, `getCaller` returns the second-to-last
pushed entry of the `callersStack` (index 1 of the top-first list — the
Dependency pushed immediately before the currently-resolving one), leaving
the state unchanged, and returns `undefined` whenever the stack holds fewer
than two entries. -/
theorem C7_getCaller (Γ : FnEnv) (n : Nat) (s : St) (cid : Nat)
    (h : s.activeC = some cid) :
    run Γ (n + 1) (Sum.inl .getCallerE) s
      = some (.ok (match (getCtr s cid).callersStack.get? 1 with
                   | some d => .fnv d
                   | none => .undef), s) ∧
    ((getCtr s cid).callersStack.length < 2 →
      run Γ (n + 1) (Sum.inl .getCallerE) s = some (.ok .undef, s)) := by
  constructor
  · simp only [run, getCallerOp, h]
  · intro hl
    have hn : (getCtr s cid).callersStack.get? 1 = none := by
      rw [List.get?_eq_none]
      omega
    simp only [run, getCallerOp, h, hn]

/-- Witness for C7 at a concrete input: `getCaller` in `actWorld`, whose
ambient container 0 has an empty caller stack. -/
theorem C7_witness :
    run env6 4 (Sum.inl .getCallerE) actWorld = some (.ok .undef, actWorld) :=
  (C7_getCaller env6 3 actWorld 0 rfl).2 (by decide)

/-- C8: every terminating resolution of a Dependency restores the
`callersStack` of every (previously allocated) container on every exit
path — whether the resolved value is returned or a thrown error
(including `scopeRequired` from a nested resolution) is propagated, the
stack afterwards holds exactly the entries it held before. -/
theorem C8_stack_restored (Γ : FnEnv) (n D dflt : Nat) (s : St)
    (out : Except Err Value × St)
    (_hD : findMap Γ D = some (.dep dflt))
    (h : run Γ n (Sum.inr D) s = some out) :
    ∀ c, c < s.freshId → (getCtr out.2 c).callersStack = (getCtr s c).callersStack :=
  fun c hc => (run_frame Γ n _ s out h).2 c hc

/-- Witness for C8 at a concrete input: resolving dependency 1 of `env6` in
`actWorld` restores container 0's caller stack. -/
theorem C8_witness :
    (getCtr outC8.2 0).callersStack = (getCtr actWorld 0).callersStack :=
  C8_stack_restored env6 10 1 0 actWorld outC8 rfl rfl 0 (by decide)

/-- C9 counterexample: the claim asserts that after a clone (container 2 of
`cloneWorld`) first computes and caches a value for the shared
singleton-wrapped function 1, the source (container 0)'s cache for that
function is unaffected and the source's next invocation computes its own
value.  In fact `createContainer` shares the `singletonsStateMap`
*reference*, so after the clone's resolution (state `c9mid`) the source's
cache already holds the clone's entry `1 ↦ 0`, and the source's next
invocation returns the clone's cached 0 — not a freshly computed 1 (the
counter cell stands at 1, so an independent computation would yield 1). -/
theorem C9_counterexample :
    findMap (getStore c9mid (getCtr c9mid 0).singletonsRef) 1 = some (.nat 0) ∧
    c9mid.counter = 1 ∧
    (run env9 20 (Sum.inl (.withC (.call 1) (some 0))) c9mid).map Prod.fst
      = some (.ok (.nat 0)) ∧
    (run env9 20 (Sum.inl (.withC (.call 1) (some 0))) c9mid).map Prod.fst
      ≠ some (.ok (.nat 1)) := by
  refine ⟨rfl, rfl, rfl, ?_⟩
  intro hcontra
  simp only [show (run env9 20 (Sum.inl (.withC (.call 1) (some 0))) c9mid).map Prod.fst
      = some (.ok (.nat 0)) from rfl] at hcontra
  simp at hcontra

/-- C9 amended: two containers related by cloning share one
`singletonCache` reference: after the clone (container 2) first computes
and caches a value for the shared singleton-wrapped function, the source
(container 0)'s next invocation observes the clone's cached value rather
than computing its own.  Two containers *not* related by cloning
(`twoWorld`) that share the same function instance cache independently:
each computes its own value once its own map is populated. -/
theorem C9_amended :
    (getCtr cloneWorld 2).singletonsRef = (getCtr cloneWorld 0).singletonsRef ∧
    (run env9 20 (Sum.inl (.pairE (.withC (.call 1) (some 2))
        (.withC (.call 1) (some 0)))) cloneWorld).map Prod.fst
      = some (.ok (.pair (.nat 0) (.nat 0))) ∧
    (run env9 20 (Sum.inl (.pairE (.withC (.call 1) (some 0))
        (.withC (.call 1) (some 2)))) twoWorld).map Prod.fst
      = some (.ok (.pair (.nat 0) (.nat 1))) :=
  ⟨rfl, rfl, rfl⟩

/-- C10 counterexample: the claim asserts the entry stored by
`Rebind(D, B)` is a plain resolution function, never the Dependency `B`
itself, so that rebinding `B` afterwards cannot change what `D` resolves
through.  Over `envX`, where dependency 2 (`C`) has the dependency 1 (`B`)
as its *default function*: after `C()` (seeding `C ↦ B` and `B ↦ 0`),
`bind(B, C)` stores `B` itself as `B`'s entry, and then `bind(D, B)`
(state `c10world`) stores under `D = 3` the Dependency `B = 1` itself
(whose table entry is `FnDef.dep 0`).  Consequently a later
`bind(B, 5 = () => 2)` does change what `D` resolves through: the full
scenario ends with `D()` yielding 2 through `B`'s new function. -/
theorem C10_counterexample :
    findMap (getCtr c10world 0).dependenciesMap 3 = some 1 ∧
    findMap envX 1 = some (.dep 0) ∧
    (run envX 30 (Sum.inl (.withC
        (.seqE (.call 2) (.seqE (.bindE 1 2) (.seqE (.bindE 3 1)
          (.seqE (.bindE 1 5) (.call 3))))) (some 0))) oneWorld).map Prod.fst
      = some (.ok (.nat 2)) :=
  ⟨rfl, rfl, rfl⟩

/-- C10 amended: the aliasing performed by `Rebind(D, B)` is resolved at
bind time (the entry stored for `D` is `B`'s current override, else `B`'s
default — see C5), and *when the stored function `g` is a plain function*
(not itself a Dependency identity), a resolution of `D` invokes `g`'s own
body directly — mentioning nothing bound to `B` — so rebinding `B` to a
different function afterwards does not change which function `D` resolves
through.  Concretely (over `envA`): after `bind(D, B); bind(B, g2)`, `D()`
still yields 1 via `B`'s bind-time default `g1`; and the degenerate
`bind(D, D); D()` binds `D` to its own default (a plain function) and
resolves to 0 without self-recursion. -/
theorem C10_amended (Γ : FnEnv) (n : Nat) (t : St) (cid D g ddflt : Nat) (body : Expr)
    (h1 : t.activeC = some cid)
    (h2 : findMap Γ D = some (.dep ddflt))
    (h3 : findMap (getCtr t cid).dependenciesMap D = some g)
    (h4 : findMap Γ g = some (.user body)) :
    run Γ (n + 2) (Sum.inr D) t
      = (match run Γ n (Sum.inl body) (pushCaller t cid D) with
         | none => none
         | some (r, s3) => some (r, popCaller s3 cid)) ∧
    (run envA 20 (Sum.inl (.withC
        (.seqE (.bindE 3 1) (.seqE (.bindE 1 2) (.call 3))) none)) s0).map Prod.fst
      = some (.ok (.nat 1)) ∧
    (run envA 20 (Sum.inl (.withC (.seqE (.bindE 3 3) (.call 3)) none)) s0).map Prod.fst
      = some (.ok (.nat 0)) := by
  refine ⟨?_, rfl, rfl⟩
  simp only [run, h1, h2, h3, h4]

/-- Witness for the amended C10 at a concrete input: in `aliasWorld`
(container 0 ambient, dependency 3 bound to the plain function 0),
resolving dependency 3 runs function 0's body directly. -/
theorem C10_amended_witness :
    run envA 7 (Sum.inr 3) aliasWorld
      = (match run envA 5 (Sum.inl (.constE (.nat 1))) (pushCaller aliasWorld 0 3) with
         | none => none
         | some (r, s3) => some (r, popCaller s3 0)) :=
  (C10_amended envA 5 aliasWorld 0 3 0 4 (.constE (.nat 1)) rfl rfl rfl rfl).1

end DI
